import Mathlib

/-!
Verification of the crop-recommendation frontend
(`src/crop-recommendation-frontend/script.js`) against its specification.

The JavaScript is shallowly embedded: JSON values are an inductive type,
`JSON.parse` is an executable fuel-based parser, `parseFloat` results are
modelled as `Option ℚ` (`none` for `NaN`), and the DOM-driven control flow
(submit handler, save-to-history action) is modelled as pure state-passing
functions.  All definitions are executable.
-/

namespace CropRec

/-- A JSON value as produced by `JSON.parse`.  Numbers keep their source
lexeme (the scripts never do arithmetic on parsed numbers, only truthiness
tests and string interpolation). -/
inductive Json where
  | null
  | bool (b : Bool)
  | num (lexeme : String)
  | str (s : String)
  | arr (elems : List Json)
  | obj (fields : List (String × Json))
deriving Repr

/-- Insert a key/value pair into an object's field list the way repeated
JavaScript property assignment does: an existing key keeps its position but
gets the new value, a new key is appended. -/
def objInsert (fields : List (String × Json)) (k : String) (v : Json) :
    List (String × Json) :=
  match fields with
  | [] => [(k, v)]
  | (k', v') :: rest =>
      if k' = k then (k, v) :: rest else (k', v') :: objInsert rest k v

/-- First-match association-list lookup (object property access). -/
def assocLookup : List (String × Json) → String → Option Json
  | [], _ => none
  | (k, v) :: rest, key => if k = key then some v else assocLookup rest key

/-- Decimal digits of a natural number, most significant first. -/
def natDigits (n : Nat) : List Char :=
  (Nat.toDigits 10 n)

/-- Is `key` the canonical decimal representation of index `i`?  JavaScript
string/array indexing only hits canonical indices. -/
def isCanonicalIndex (key : String) (i : Nat) : Bool :=
  key = String.mk (natDigits i)

/-- Property access `j[key]`, returning `none` for `undefined`.  Objects use
their field list; strings and arrays expose canonical numeric indices (the
only own enumerable properties `Object.keys` reports for them); other
primitives have no own properties. -/
def getProp (j : Json) (key : String) : Option Json :=
  match j with
  | Json.obj fields => assocLookup fields key
  | Json.str s =>
      match key.toNat? with
      | some i =>
          if isCanonicalIndex key i then
            match s.data.get? i with
            | some c => some (Json.str (String.mk [c]))
            | none => none
          else none
      | none => none
  | Json.arr xs =>
      match key.toNat? with
      | some i => if isCanonicalIndex key i then xs.get? i else none
      | none => none
  | _ => none

/-- The test `typeof v === 'object' && v !== null` (arrays included). -/
def isJsObject : Json → Bool
  | Json.obj _ => true
  | Json.arr _ => true
  | _ => false

/-- Model of `Object.keys`: field names for objects, canonical indices for strings
and arrays, nothing for other primitives. -/
def jsKeys (j : Json) : List String :=
  match j with
  | Json.obj fields => fields.map Prod.fst
  | Json.str s => (List.range s.length).map (fun i => String.mk (natDigits i))
  | Json.arr xs => (List.range xs.length).map (fun i => String.mk (natDigits i))
  | _ => []

/-- Do all digit characters of the mantissa (the part before any exponent
marker) equal `'0'`?  A well-formed JSON number lexeme denotes zero exactly
when this holds. -/
def mantissaDigitsAllZero : List Char → Bool
  | [] => true
  | c :: cs =>
      if c = 'e' ∨ c = 'E' then true
      else (if c.isDigit then c = '0' else true) && mantissaDigitsAllZero cs

/-- JavaScript truthiness of a parsed JSON value (`NaN` cannot arise from
`JSON.parse`, and `undefined` is represented by `Option.none` upstream). -/
def jsTruthy : Json → Bool
  | Json.null => false
  | Json.bool b => b
  | Json.num lexeme => !(mantissaDigitsAllZero lexeme.data)
  | Json.str s => s ≠ ""
  | Json.arr _ => true
  | Json.obj _ => true

/-- Hex digit character (lowercase) for `n < 16`. -/
def toHexChar (n : Nat) : Char :=
  if n < 10 then Char.ofNat (48 + n) else Char.ofNat (87 + (n - 10))

/-- Escape one character the way `JSON.stringify` escapes string contents. -/
def escapeChar (c : Char) : List Char :=
  if c = '"' then ['\\', '"']
  else if c = '\\' then ['\\', '\\']
  else if c = Char.ofNat 8 then ['\\', 'b']
  else if c = Char.ofNat 9 then ['\\', 't']
  else if c = Char.ofNat 10 then ['\\', 'n']
  else if c = Char.ofNat 12 then ['\\', 'f']
  else if c = Char.ofNat 13 then ['\\', 'r']
  else if c.toNat < 32 then
    ['\\', 'u', '0', '0', toHexChar (c.toNat / 16), toHexChar (c.toNat % 16)]
  else [c]

/-- Quote and escape a string the way `JSON.stringify` does. -/
def quoteString (s : String) : String :=
  String.mk ('"' :: (s.data.flatMap escapeChar) ++ ['"'])

mutual

/-- Model of `JSON.stringify` on a parsed JSON value (numbers are emitted as their
source lexeme). -/
def stringify : Json → String
  | Json.null => "null"
  | Json.bool true => "true"
  | Json.bool false => "false"
  | Json.num lexeme => lexeme
  | Json.str s => quoteString s
  | Json.arr xs => "[" ++ stringifyElems xs ++ "]"
  | Json.obj fields => "\x7b" ++ stringifyFields fields ++ "\x7d"

/-- Comma-separated serialization of array elements. -/
def stringifyElems : List Json → String
  | [] => ""
  | [x] => stringify x
  | x :: xs => stringify x ++ "," ++ stringifyElems xs

/-- Comma-separated serialization of object members. -/
def stringifyFields : List (String × Json) → String
  | [] => ""
  | [(k, v)] => quoteString k ++ ":" ++ stringify v
  | (k, v) :: rest => quoteString k ++ ":" ++ stringify v ++ "," ++ stringifyFields rest

end

/-! ### An executable model of `JSON.parse`

A fuel-based recursive-descent parser for the JSON grammar, used as the
model of the platform primitive `JSON.parse` (it is not part of the
repository's source; `some` models a successful parse, `none` a thrown
`SyntaxError`). -/

/-- JSON insignificant whitespace. -/
def isJsonWs (c : Char) : Bool :=
  c = ' ' || c = '\t' || c = '\n' || c = '\r'

/-- Drop leading JSON whitespace. -/
def skipWs : List Char → List Char
  | [] => []
  | c :: cs => if isJsonWs c then skipWs cs else c :: cs

/-- Value of a hex digit character, if it is one. -/
def hexDigitVal (c : Char) : Option Nat :=
  if '0' ≤ c ∧ c ≤ '9' then some (c.toNat - 48)
  else if 'a' ≤ c ∧ c ≤ 'f' then some (c.toNat - 87)
  else if 'A' ≤ c ∧ c ≤ 'F' then some (c.toNat - 55)
  else none

/-- Parse the body of a JSON string (after the opening quote), accumulating
decoded characters in reverse; returns the string and the rest of the
input.  Unescaped control characters and invalid escapes fail. -/
def parseStringBody (acc : List Char) : List Char → Option (String × List Char)
  | [] => none
  | '"' :: rest => some (String.mk acc.reverse, rest)
  | '\\' :: esc =>
      match esc with
      | '"' :: rest => parseStringBody ('"' :: acc) rest
      | '\\' :: rest => parseStringBody ('\\' :: acc) rest
      | '/' :: rest => parseStringBody ('/' :: acc) rest
      | 'b' :: rest => parseStringBody (Char.ofNat 8 :: acc) rest
      | 'f' :: rest => parseStringBody (Char.ofNat 12 :: acc) rest
      | 'n' :: rest => parseStringBody (Char.ofNat 10 :: acc) rest
      | 'r' :: rest => parseStringBody (Char.ofNat 13 :: acc) rest
      | 't' :: rest => parseStringBody (Char.ofNat 9 :: acc) rest
      | 'u' :: h1 :: h2 :: h3 :: h4 :: rest =>
          match hexDigitVal h1, hexDigitVal h2, hexDigitVal h3, hexDigitVal h4 with
          | some a, some b, some c, some d =>
              parseStringBody (Char.ofNat (a * 4096 + b * 256 + c * 16 + d) :: acc) rest
          | _, _, _, _ => none
      | _ => none
  | c :: rest =>
      if c.toNat < 32 then none else parseStringBody (c :: acc) rest

/-- Split off a maximal run of decimal digits. -/
def takeDigits : List Char → List Char × List Char
  | [] => ([], [])
  | c :: cs =>
      if c.isDigit then
        let (ds, rest) := takeDigits cs
        (c :: ds, rest)
      else ([], c :: cs)

/-- Parse the integer part of a JSON number: `0`, or a nonzero digit
followed by more digits. -/
def parseIntPart : List Char → Option (List Char × List Char)
  | [] => none
  | c :: cs =>
      if c = '0' then some (['0'], cs)
      else if c.isDigit then
        let (ds, rest) := takeDigits cs
        some (c :: ds, rest)
      else none

/-- Parse the optional fraction part (`.` followed by one or more digits). -/
def parseFracPart (cs : List Char) : Option (List Char × List Char) :=
  match cs with
  | '.' :: rest =>
      match takeDigits rest with
      | ([], _) => none
      | (ds, rest') => some ('.' :: ds, rest')
  | _ => some ([], cs)

/-- Parse the optional exponent part (`e`/`E`, optional sign, digits). -/
def parseExpPart (cs : List Char) : Option (List Char × List Char) :=
  match cs with
  | c :: rest =>
      if c = 'e' ∨ c = 'E' then
        match rest with
        | s :: rest' =>
            if s = '+' ∨ s = '-' then
              match takeDigits rest' with
              | ([], _) => none
              | (ds, rest'') => some (c :: s :: ds, rest'')
            else
              match takeDigits rest with
              | ([], _) => none
              | (ds, rest'') => some (c :: ds, rest'')
        | [] => none
      else some ([], cs)
  | [] => some ([], cs)

/-- Parse a JSON number, returning its lexeme and the rest of the input. -/
def parseNumberLexeme (cs : List Char) : Option (List Char × List Char) :=
  let (sign, cs1) :=
    match cs with
    | '-' :: rest => (['-'], rest)
    | _ => (([] : List Char), cs)
  match parseIntPart cs1 with
  | none => none
  | some (ip, cs2) =>
      match parseFracPart cs2 with
      | none => none
      | some (fp, cs3) =>
          match parseExpPart cs3 with
          | none => none
          | some (ep, cs4) => some (sign ++ ip ++ fp ++ ep, cs4)

/-- The `\x7b` character. -/
def lbraceChar : Char := Char.ofNat 123

/-- The `\x7d` character. -/
def rbraceChar : Char := Char.ofNat 125

mutual

/-- Parse one JSON value (fuel-based; the top level supplies ample fuel). -/
def parseValue : Nat → List Char → Option (Json × List Char)
  | 0, _ => none
  | Nat.succ n, cs =>
      match skipWs cs with
      | 'n' :: 'u' :: 'l' :: 'l' :: rest => some (Json.null, rest)
      | 't' :: 'r' :: 'u' :: 'e' :: rest => some (Json.bool true, rest)
      | 'f' :: 'a' :: 'l' :: 's' :: 'e' :: rest => some (Json.bool false, rest)
      | '"' :: rest =>
          match parseStringBody [] rest with
          | some (s, rest') => some (Json.str s, rest')
          | none => none
      | '[' :: rest =>
          (match skipWs rest with
           | ']' :: rest' => some (Json.arr [], rest')
           | other => parseElems n other [])
      | c :: rest =>
          if c = lbraceChar then
            match skipWs rest with
            | c' :: rest' =>
                if c' = rbraceChar then some (Json.obj [], rest')
                else parseMembers n (c' :: rest') []
            | [] => none
          else if c = '-' ∨ c.isDigit then
            match parseNumberLexeme (c :: rest) with
            | some (lex, rest') => some (Json.num (String.mk lex), rest')
            | none => none
          else none
      | [] => none

/-- Parse the elements of a (nonempty) JSON array. -/
def parseElems : Nat → List Char → List Json → Option (Json × List Char)
  | 0, _, _ => none
  | Nat.succ n, cs, acc =>
      match parseValue n cs with
      | none => none
      | some (v, rest) =>
          match skipWs rest with
          | ',' :: rest' => parseElems n rest' (acc ++ [v])
          | ']' :: rest' => some (Json.arr (acc ++ [v]), rest')
          | _ => none

/-- Parse the members of a (nonempty) JSON object. -/
def parseMembers : Nat → List Char → List (String × Json) → Option (Json × List Char)
  | 0, _, _ => none
  | Nat.succ n, cs, acc =>
      match skipWs cs with
      | '"' :: rest =>
          match parseStringBody [] rest with
          | none => none
          | some (k, rest1) =>
              match skipWs rest1 with
              | ':' :: rest2 =>
                  match parseValue n rest2 with
                  | none => none
                  | some (v, rest3) =>
                      match skipWs rest3 with
                      | ',' :: rest4 => parseMembers n rest4 (objInsert acc k v)
                      | c :: rest4 =>
                          if c = rbraceChar then
                            some (Json.obj (objInsert acc k v), rest4)
                          else none
                      | [] => none
              | _ => none
      | _ => none

end

/-- Model of `JSON.parse`: parse an entire string as a single JSON value (allowing
surrounding whitespace); `none` models a thrown `SyntaxError`. -/
def parseJson (s : String) : Option Json :=
  match parseValue (2 * s.length + 2) s.data with
  | some (j, rest) => if skipWs rest = [] then some j else none
  | none => none

/-! ### Response normalizer (`getRecommendation`, script.js lines 19–39) -/

/-- The envelope test from script.js line 29:
`parsed && typeof parsed === 'object' && typeof parsed.body === 'string'`,
returning the `body` string when the test passes. -/
def getBodyStr (j : Json) : Option String :=
  if isJsObject j then
    match getProp j "body" with
    | some (Json.str s) => some s
    | _ => none
  else none

/-- Post-fetch processing of `getRecommendation` (script.js lines 19–39)
as a function of the response text: parse the text (empty text becomes
`\x7b\x7d`, unparseable text becomes `\x7b__raw: text\x7d`), then unwrap a
proxy envelope whose `body` is a string, keeping the envelope when `body`
does not parse. -/
def normalize (text : String) : Json :=
  let parsed : Json :=
    if text = "" then Json.obj []
    else
      match parseJson text with
      | some j => j
      | none => Json.obj [("__raw", Json.str text)]
  match getBodyStr parsed with
  | some b =>
      match parseJson b with
      | some inner => inner
      | none => parsed
  | none => parsed

/-- Response processing of `saveToHistory` (script.js lines 410–427): same
parse step as `normalize`, but when the envelope's `body` string does not
parse it yields `\x7bmessage: body\x7d` instead of the envelope. -/
def saveUnwrap (text : String) : Json :=
  let parsed : Json :=
    if text = "" then Json.obj []
    else
      match parseJson text with
      | some j => j
      | none => Json.obj [("__raw", Json.str text)]
  match getBodyStr parsed with
  | some b =>
      match parseJson b with
      | some inner => inner
      | none => Json.obj [("message", Json.str b)]
  | none => parsed

/-- Does `text` parse to an envelope whose `body` string fails to parse as
JSON?  This is exactly the case where `normalize` and `saveUnwrap`
disagree. -/
def unparseableBodyEnvelope (text : String) : Bool :=
  match parseJson text with
  | some j =>
      match getBodyStr j with
      | some b => (parseJson b).isNone
      | none => false
  | none => false

/-! ### Input validation (script.js lines 45–77) -/

/-- One row of the `VALIDATION_RULES` table. -/
structure Rule where
  min : Int
  max : Int
deriving Repr, DecidableEq

/-- The `VALIDATION_RULES` table (script.js lines 45–53). -/
def VALIDATION_RULES : List (String × Rule) :=
  [("ph", ⟨0, 14⟩), ("n", ⟨0, 1000⟩), ("p", ⟨0, 1000⟩), ("k", ⟨0, 1000⟩),
   ("rain", ⟨0, 10000⟩), ("temp", ⟨-20, 50⟩), ("humidity", ⟨0, 100⟩)]

/-- The `rules[input.name]` lookup. -/
def lookupRule : List (String × Rule) → String → Option Rule
  | [], _ => none
  | (k, r) :: rest, key => if k = key then some r else lookupRule rest key

/-- JavaScript `value < bound` where `value` is a `parseFloat` result
modelled as `Option ℚ` (`none` is `NaN`; every comparison with `NaN` is
false). -/
def jsLtNum : Option ℚ → Int → Bool
  | none, _ => false
  | some v, m => decide (v < (m : ℚ))

/-- JavaScript `value > bound` for a `parseFloat` result (see `jsLtNum`). -/
def jsGtNum : Option ℚ → Int → Bool
  | none, _ => false
  | some v, m => decide ((m : ℚ) < v)

/-- Model of `validateInput` (script.js lines 66–77).  The input's field name and
its `parseFloat`-ed value are passed; the result is the returned boolean
paired with the custom-validity message the call sets. -/
def validateInput (name : String) (value : Option ℚ) (rules : List (String × Rule)) :
    Bool × String :=
  match lookupRule rules name with
  | some r =>
      let mn := r.min
      let mx := r.max
      if jsLtNum value mn || jsGtNum value mx then
        (false, s!"Value must be between {mn} and {mx}")
      else (true, "")
  | none => (true, "")

/-- A numeric form input: its `name` attribute, its `parseFloat`-ed value
(`none` for `NaN`, i.e. empty or non-numeric text), and its current
custom-validity message. -/
structure NumberInput where
  name : String
  value : Option ℚ
  validationMessage : String
deriving Repr, DecidableEq

/-- The validation loop of the submit handler (script.js lines 94–99):
`forEach` over all numeric inputs, conjoining the `validateInput` results
and recording the validity message each call sets. -/
def runValidation (inputs : List NumberInput) : Bool × List NumberInput :=
  inputs.foldl
    (fun acc i =>
      let r := validateInput i.name i.value VALIDATION_RULES
      (acc.1 && r.1, acc.2 ++ [{ i with validationMessage := r.2 }]))
    (true, [])

/-- The prepared request payload (script.js lines 107–116); numeric fields
are `parseFloat` results. -/
structure FormData where
  soil : String
  ph : Option ℚ
  n : Option ℚ
  p : Option ℚ
  k : Option ℚ
  rain : Option ℚ
  temp : Option ℚ
  humidity : Option ℚ
deriving Repr, DecidableEq

/-- Outcome of the validation phase of the submit handler: either an abort
(alert shown, inputs carry updated validity messages, no request issued) or
a network request with the prepared payload. -/
inductive SubmitStep where
  | aborted (alertMessage : String) (inputs : List NumberInput)
  | requesting (payload : FormData) (inputs : List NumberInput)
deriving Repr

/-- Validation phase of the submit handler (script.js lines 94–116): run
the validation loop; on any failure alert and return before `fetch`,
otherwise proceed to the network request. -/
def submitValidate (inputs : List NumberInput) (payload : FormData) : SubmitStep :=
  let r := runValidation inputs
  if r.1 then SubmitStep.requesting payload r.2
  else SubmitStep.aborted "Please check the input values and try again." r.2

/-- Does this submit step issue a network call? -/
def issuesNetworkRequest : SubmitStep → Bool
  | SubmitStep.aborted _ _ => false
  | SubmitStep.requesting _ _ => true

/-! ### Details extraction and projection (script.js lines 155–246) -/

/-- JavaScript `d.k1 || d.k2 || ...`: the first alias whose property is
present and truthy. -/
def firstTruthy (j : Json) : List String → Option Json
  | [] => none
  | k :: ks =>
      match getProp j k with
      | some v => if jsTruthy v then some v else firstTruthy j ks
      | none => firstTruthy j ks

/-- Alias chain for the soil-type field (script.js line 204). -/
def soilAliases : List String :=
  ["optimal_soil_type", "optimalSoilType", "optimal_soil", "soil_type",
   "soilType", "soil", "soilDetails", "Soil"]

/-- Alias chain for the pH-range field (script.js line 205). -/
def phAliases : List String :=
  ["optimal_soil_ph", "optimal_pH_range", "optimalPHRange", "optimal_pH",
   "ph_range", "phRange", "pH", "ph", "pH_range", "pHRange"]

/-- Alias chain for the rainfall field (script.js line 206). -/
def rainAliases : List String :=
  ["optimal_rainfall_mm", "rainfall_requirement", "rainfallRequirement",
   "optimal_rainfall", "rainfall", "rain", "Rainfall", "rainfall_mm"]

/-- Alias chain for the temperature field (script.js line 207). -/
def tempAliases : List String :=
  ["optimal_temperature_c", "temperature_range", "temperatureRange",
   "optimal_temperature", "temp_range", "temperature", "temp",
   "Temperature", "optimal_temp"]

/-- Alias chain for the humidity field (script.js line 208). -/
def humidityAliases : List String :=
  ["optimal_humidity", "humidity_range", "humidityRange", "humidity",
   "Humidity", "optimal_humidity_range"]

/-- Alias chain for the nutrient map (script.js line 189). -/
def nutrientAliases : List String :=
  ["nutrient_requirements", "nutrientRequirements", "nutrients"]

/-- The static `coveredKeys` list (script.js line 225). -/
def coveredKeys : List String :=
  ["nutrient_requirements", "nutrientRequirements", "nutrients",
   "optimal_soil_type", "optimalSoilType", "optimal_soil", "soil_type",
   "soilType", "soil", "optimal_soil_ph", "optimal_pH_range",
   "optimalPHRange", "optimal_pH", "ph_range", "phRange", "pH", "ph",
   "optimal_rainfall_mm", "rainfall_requirement", "rainfallRequirement",
   "rainfall", "rain", "optimal_temperature_c", "temperature_range",
   "temperatureRange", "temperature", "temp_range", "temp",
   "optimal_humidity", "humidity_range", "humidityRange", "humidity"]

/-- Resolve a fixed concept through its alias chain, falling back to the
em-dash placeholder (script.js lines 204–208). -/
def aliasResolve (d : Json) (aliases : List String) : Json :=
  match firstTruthy d aliases with
  | some v => v
  | none => Json.str "—"

/-- Nutrient map extraction (script.js lines 189–192): alias chain with
`\x7b\x7d` default, then a best-effort parse when it is a string. -/
def nutrientsOf (d : Json) : Json :=
  let n :=
    match firstTruthy d nutrientAliases with
    | some v => v
    | none => Json.obj []
  match n with
  | Json.str s =>
      match parseJson s with
      | some p => p
      | none => Json.str s
  | x => x

/-- The additional bucket (script.js lines 224–237): keys of the details
value not in the static `coveredKeys` list, each paired with the
`JSON.stringify` of its value, skipping `null` and empty-string values
(`undefined` cannot occur for an own key of a parsed value). -/
def additionalEntries (d : Json) : List (String × String) :=
  ((jsKeys d).filter (fun k => !(coveredKeys.contains k))).filterMap
    (fun k =>
      match getProp d k with
      | some Json.null => none
      | some (Json.str s) => if s = "" then none else some (k, quoteString s)
      | some v => some (k, stringify v)
      | none => none)

/-- The projected details view: the five fixed concepts, the nutrient map,
and the additional bucket. -/
structure DetailsView where
  nutrients : Json
  soilType : Json
  pHRange : Json
  rainReq : Json
  tempRange : Json
  humidityRange : Json
  additional : List (String × String)
deriving Repr

/-- Projection of a truthy details value (script.js lines 184–237). -/
def project (d : Json) : DetailsView :=
  { nutrients := nutrientsOf d
    soilType := aliasResolve d soilAliases
    pHRange := aliasResolve d phAliases
    rainReq := aliasResolve d rainAliases
    tempRange := aliasResolve d tempAliases
    humidityRange := aliasResolve d humidityAliases
    additional := additionalEntries d }

/-- The rendered state of the details panel: cleared (`innerHTML = ''`,
script.js line 242) or the projected grid. -/
inductive DetailsPanel where
  | cleared
  | grid (view : DetailsView)
deriving Repr

/-- Details-panel rendering (script.js lines 184–243): the projection runs
only when the details value is truthy; otherwise the panel is cleared. -/
def renderDetailsPanel (details : Option Json) : DetailsPanel :=
  match details with
  | none => DetailsPanel.cleared
  | some d => if jsTruthy d then DetailsPanel.grid (project d) else DetailsPanel.cleared

/-- Details extraction from the normalized response (script.js lines
155–172): `json.details || null`, a best-effort parse when it is a string,
and the `json.body` fallback (`b.details || b.result || b.data || null`)
when `details` is absent; `none` models `null`. -/
def extractDetails (json : Json) : Option Json :=
  let d0 : Option Json :=
    match getProp json "details" with
    | some v => if jsTruthy v then some v else none
    | none => none
  let d1 : Option Json :=
    match d0 with
    | some (Json.str s) =>
        match parseJson s with
        | some p => some p
        | none => some (Json.str s)
    | x => x
  match d1 with
  | some d => some d
  | none =>
      if (getProp json "details").isNone then
        match getProp json "body" with
        | some bv =>
            if jsTruthy bv then
              let b : Option Json :=
                match bv with
                | Json.str s => parseJson s
                | _ => some bv
              match b with
              | none => none
              | some Json.null => none
              | some bj => firstTruthy bj ["details", "result", "data"]
            else none
        | none => none
      else none

/-! ### Submit handler flow (script.js lines 87–279) -/

/-- JavaScript string coercion of a parsed JSON value, as used by
`innerText`/`textContent` assignment and template interpolation. -/
def jsToString : Json → String
  | Json.null => "null"
  | Json.bool true => "true"
  | Json.bool false => "false"
  | Json.num lexeme => lexeme
  | Json.str s => s
  | Json.arr xs => String.intercalate "," (xs.map (fun x => jsToStringShallow x))
  | Json.obj _ => "[object Object]"
where
  /-- One-level coercion for array elements (`Array.prototype.toString`
  maps `null` to the empty string). -/
  jsToStringShallow : Json → String
  | Json.null => ""
  | Json.bool true => "true"
  | Json.bool false => "false"
  | Json.num lexeme => lexeme
  | Json.str s => s
  | Json.arr _ => ""
  | Json.obj _ => "[object Object]"

/-- The value `json.key || fallback` coerced to a display string (script.js lines
150–151). -/
def displayOr (j : Json) (key fallback : String) : String :=
  match getProp j key with
  | some v => if jsTruthy v then jsToString v else fallback
  | none => fallback

/-- Template interpolation `${json.key}` (`undefined` prints as the string
`"undefined"`). -/
def jsInterp (j : Json) (key : String) : String :=
  match getProp j key with
  | some v => jsToString v
  | none => "undefined"

/-- The selection `Array.isArray(json.growing_tips) ? ... : (Array.isArray(json.growingTips)
? ... : [])` (script.js line 254). -/
def growingTipsOf (json : Json) : List Json :=
  match getProp json "growing_tips" with
  | some (Json.arr xs) => xs
  | _ =>
      match getProp json "growingTips" with
      | some (Json.arr xs) => xs
      | _ => []

/-- The client-side fallback tips (script.js lines 255–260). -/
def fallbackTips (json : Json) : List String :=
  let cropRec := jsInterp json "recommendation"
  [s!"Optimal planting season for {cropRec} in your area",
   "Recommended irrigation schedule based on your rainfall",
   "Specific fertilizer recommendations for your soil type",
   "Pest management suggestions for your region"]

/-- The selection `apiTips.length ? apiTips : fallbackTips`, coerced to the strings put
into the list items (script.js lines 262–267). -/
def finalTips (json : Json) : List String :=
  let api := growingTipsOf json
  if api.length ≠ 0 then api.map jsToString else fallbackTips json

/-- The rendered result panel state (the DOM nodes the submit handler
writes). -/
structure Dom where
  cropName : String
  explanation : String
  detailsPanel : DetailsPanel
  tips : List String
  loadingVisible : Bool
  resultVisible : Bool

/-- The snapshot stored in the process-wide `lastResult` slot (script.js
lines 126–132). -/
structure StoredResult where
  timestamp : String
  input : FormData
  result : Json
  name : Option String
  location : Option String

/-- Process-wide state: the `lastResult` slot and the rendered panel. -/
structure AppState where
  lastResult : Option StoredResult
  dom : Dom

/-- Outcome of the single `fetch` of a submission: a rejected promise
(network error) or a response text. -/
inductive FetchOutcome where
  | failure (message : String)
  | success (text : String)

/-- Observable outcome of one submit cycle: validation abort (alert, no
request), network failure (alert from the catch block), rendering exception
(alert from the catch block after the response arrived), or a completed
render. -/
inductive SubmitOutcome where
  | validationAborted (alertMessage : String)
  | failedNetwork (errMessage : String)
  | failedRender
  | renderedOk

/-- Does rendering the normalized response throw (with all target DOM
elements present)?  The first uncaught throwing step is
`json.recommendation` on script.js line 150, which throws exactly when
`json` is `null`. -/
def renderThrows : Json → Bool
  | Json.null => true
  | _ => false

/-- The successful rendering path (script.js lines 150–271): write the
crop name, explanation, details panel and tips, hide the loading
indicator, show the result. -/
def renderResult (dom : Dom) (json : Json) : Dom :=
  { dom with
    cropName := displayOr json "recommendation" "No specific crop recommended"
    explanation := displayOr json "explanation" "No explanation available"
    detailsPanel := renderDetailsPanel (extractDetails json)
    tips := finalTips json
    loadingVisible := false
    resultVisible := true }

/-- One full submit cycle (script.js lines 87–279): validate (abort on
failure), show the loading state, then either the catch path for a network
failure, or — after a response — store the `lastResult` snapshot (line
126, before any rendering) and render, falling into the catch path when
rendering throws.  `now` is the `toISOString` timestamp; `nm`/`loc` the
optional name/location field values; `fetch` the outcome of the single
network call. -/
def submitHandler (st : AppState) (inputs : List NumberInput) (payload : FormData)
    (nm loc : Option String) (now : String) (fetch : FetchOutcome) :
    AppState × SubmitOutcome :=
  match submitValidate inputs payload with
  | SubmitStep.aborted msg _ => (st, SubmitOutcome.validationAborted msg)
  | SubmitStep.requesting _ _ =>
      let dom1 : Dom := { st.dom with loadingVisible := true, resultVisible := false }
      match fetch with
      | FetchOutcome.failure msg =>
          ({ lastResult := st.lastResult, dom := { dom1 with loadingVisible := false } },
           SubmitOutcome.failedNetwork msg)
      | FetchOutcome.success text =>
          let json := normalize text
          let lr : Option StoredResult := some ⟨now, payload, json, nm, loc⟩
          if renderThrows json then
            ({ lastResult := lr, dom := { dom1 with loadingVisible := false } },
             SubmitOutcome.failedRender)
          else
            ({ lastResult := lr, dom := renderResult dom1 json }, SubmitOutcome.renderedOk)

/-- The rendered content (everything except the two visibility flags) is
unchanged between two panel states. -/
def contentUnchanged (d d' : Dom) : Prop :=
  d'.cropName = d.cropName ∧ d'.explanation = d.explanation ∧
  d'.detailsPanel = d.detailsPanel ∧ d'.tips = d.tips

/-! ### Save to history (script.js lines 383–441) -/

/-- The fixed payload shape serialized to the history endpoint (script.js
lines 393–402).  `Option` fields model properties that `JSON.stringify`
drops when the value is `undefined`. -/
structure SavePayload where
  timestamp : String
  name : Option String
  location : Option String
  input : FormData
  recommendation : Option Json
  explanation : Option Json
  details : Json
  growing_tips : Json

/-- Build the history payload from the stored snapshot (script.js lines
393–402); requires `lastResult.result` not to be `null` (property access
on `null` throws before any request is issued). -/
def buildSavePayload (r : StoredResult) : SavePayload :=
  { timestamp := r.timestamp
    name := r.name
    location := r.location
    input := r.input
    recommendation := getProp r.result "recommendation"
    explanation := getProp r.result "explanation"
    details :=
      match firstTruthy r.result ["details"] with
      | some v => v
      | none => Json.obj []
    growing_tips :=
      match firstTruthy r.result ["growing_tips", "growingTips"] with
      | some v => v
      | none => Json.arr [] }

/-- The history endpoint's HTTP response: status code and body text. -/
structure HistoryResponse where
  status : Nat
  text : String

/-- Observable outcome of the save action. -/
inductive SaveOutcome where
  | noResult (alertMessage : String)
  | payloadError
  | apiError (status : Nat) (body : Json)
  | nullBodyError
  | saved (savedId : Option Json)

/-- The test `res.ok`: HTTP status in the 2xx range. -/
def statusOk (status : Nat) : Bool :=
  decide (200 ≤ status ∧ status ≤ 299)

/-- Model of `saveToHistory` (script.js lines 383–441): alert and return when no
`lastResult` exists (no request); throw while building the payload when the
stored result is `null` (no request); otherwise post the payload, unwrap
the response with `saveUnwrap`, throw `History API error: status body` on a
non-2xx status, and otherwise read a saved id (`bodyObj.id || bodyObj.insertId
|| bodyObj.message || null`, which itself throws on a `null` body).  The
second component is the request payload actually issued, `none` when no
network call is made. -/
def saveToHistory (lastResult : Option StoredResult) (resp : HistoryResponse) :
    SaveOutcome × Option SavePayload :=
  match lastResult with
  | none =>
      (SaveOutcome.noResult "No recommendation to save yet. Please get a recommendation first.",
       none)
  | some r =>
      match r.result with
      | Json.null => (SaveOutcome.payloadError, none)
      | _ =>
          let payload := buildSavePayload r
          let bodyObj := saveUnwrap resp.text
          let outcome :=
            if statusOk resp.status then
              match bodyObj with
              | Json.null => SaveOutcome.nullBodyError
              | _ => SaveOutcome.saved (firstTruthy bodyObj ["id", "insertId", "message"])
            else SaveOutcome.apiError resp.status bodyObj
          (outcome, some payload)

/-! ### Example data used by witnesses and counterexamples -/

/-- Sample prepared form payload (the `fillSampleData` values). -/
def payloadEx : FormData :=
  ⟨"Clay Loam", some 6.5, some 120, some 80, some 200, some 1200, some 25, some 65⟩

/-- Sample rendered-panel state. -/
def domEx : Dom := ⟨"", "", DetailsPanel.cleared, [], false, false⟩

/-- Sample stored recommendation snapshot. -/
def storedEx : StoredResult :=
  ⟨"2026-01-01T00:00:00.000Z", payloadEx,
   Json.obj [("recommendation", Json.str "Rice")], none, none⟩

/-- The details example from the specification. -/
def exDetails : Json :=
  Json.obj [("optimal_soil_type", Json.str "Loam"), ("ph_range", Json.str "6-7"),
            ("extra_field", Json.str "x")]

/-! ## Theorems -/

/-- The empty string is not valid JSON. -/
theorem parseJson_empty : parseJson "" = none := rfl

/-- An object whose only key is `__raw` is not a proxy envelope. -/
theorem getBodyStr_rawObj (text : String) :
    getBodyStr (Json.obj [("__raw", Json.str text)]) = none := rfl

/-- C1: The response normalizer of `getRecommendation` never raises: it is a
total function of the response text; empty text yields `\x7b\x7d` and
unparseable text yields `\x7b__raw: text\x7d` (which the envelope check then
passes through unchanged). -/
theorem normalize_never_raises :
    (∀ text : String, ∃ result : Json, normalize text = result) ∧
    normalize "" = Json.obj [] ∧
    (∀ text : String, text ≠ "" → parseJson text = none →
      normalize text = Json.obj [("__raw", Json.str text)]) := by
  refine ⟨fun text => ⟨normalize text, rfl⟩, rfl, ?_⟩
  intro text hne hp
  unfold normalize
  simp only [if_neg hne, hp, getBodyStr_rawObj]

/-- Witness for C1 at the concrete non-JSON input `"garbage"`. -/
theorem normalize_never_raises_witness :
    normalize "" = Json.obj [] ∧
    ("garbage" ≠ "" ∧ parseJson "garbage" = none) ∧
    normalize "garbage" = Json.obj [("__raw", Json.str "garbage")] :=
  ⟨normalize_never_raises.2.1, ⟨by decide, rfl⟩,
   normalize_never_raises.2.2 "garbage" (by decide) rfl⟩

/-- C2: When the response text parses, `normalize` returns the parsed value
unchanged unless it is an object with a string `body` field, in which case
it returns the parsed `body` — or the outer envelope when `body` fails to
parse. -/
theorem normalize_envelope_cases (text : String) (j : Json)
    (h : parseJson text = some j) :
    normalize text =
      match getBodyStr j with
      | some b =>
          match parseJson b with
          | some inner => inner
          | none => j
      | none => j := by
  have hne : text ≠ "" := by
    intro he
    rw [he, parseJson_empty] at h
    exact Option.noConfusion h
  unfold normalize
  simp only [if_neg hne, h]

/-- Witness for C2 at a concrete envelope whose body parses. -/
theorem normalize_envelope_cases_witness :
    parseJson "\x7b\"body\":\"5\"\x7d" = some (Json.obj [("body", Json.str "5")]) ∧
    normalize "\x7b\"body\":\"5\"\x7d" = Json.num "5" :=
  ⟨rfl, normalize_envelope_cases "\x7b\"body\":\"5\"\x7d" (Json.obj [("body", Json.str "5")]) rfl⟩

/-- C8 counterexample: on an envelope whose `body` string is not JSON, the
two unwrapping routines disagree — `getRecommendation` returns the outer
envelope while `saveToHistory` returns `\x7bmessage: body\x7d`. -/
theorem saveUnwrap_differs_from_normalize :
    normalize "\x7b\"body\":\"oops\"\x7d" = Json.obj [("body", Json.str "oops")] ∧
    saveUnwrap "\x7b\"body\":\"oops\"\x7d" = Json.obj [("message", Json.str "oops")] ∧
    normalize "\x7b\"body\":\"oops\"\x7d" ≠ saveUnwrap "\x7b\"body\":\"oops\"\x7d" := by
  refine ⟨rfl, rfl, ?_⟩
  intro h
  exact absurd (congrArg jsKeys h) (by decide)

/-- C8 (amended): the save action's unwrapping agrees with the response
normalizer on every response text except an envelope whose `body` string
fails to parse as JSON. -/
theorem saveUnwrap_agrees_with_normalize (text : String)
    (h : unparseableBodyEnvelope text = false) :
    saveUnwrap text = normalize text := by
  by_cases he : text = ""
  · subst he; rfl
  · cases hp : parseJson text with
    | none =>
        unfold saveUnwrap normalize
        simp only [if_neg he, hp, getBodyStr_rawObj]
    | some j =>
        cases hb : getBodyStr j with
        | none =>
            unfold saveUnwrap normalize
            simp only [if_neg he, hp, hb]
        | some b =>
            cases hpb : parseJson b with
            | some inner =>
                unfold saveUnwrap normalize
                simp only [if_neg he, hp, hb, hpb]
            | none =>
                exfalso
                unfold unparseableBodyEnvelope at h
                rw [hp] at h
                simp only [hb, hpb, Option.isNone_none] at h
                exact Bool.noConfusion h

/-- Witness for the amended C8 at a concrete non-envelope object. -/
theorem saveUnwrap_agrees_with_normalize_witness :
    unparseableBodyEnvelope "\x7b\"ok\":true\x7d" = false ∧
    saveUnwrap "\x7b\"ok\":true\x7d" = normalize "\x7b\"ok\":true\x7d" :=
  ⟨rfl, saveUnwrap_agrees_with_normalize "\x7b\"ok\":true\x7d" rfl⟩

/-- The validation `forEach` over any prefix, with any accumulator: every
input is visited and gets its validity message, and the flag conjoins all
results. -/
theorem runValidation_foldl (inputs : List NumberInput) (b : Bool) (acc : List NumberInput) :
    inputs.foldl
      (fun acc i =>
        let r := validateInput i.name i.value VALIDATION_RULES
        (acc.1 && r.1, acc.2 ++ [{ i with validationMessage := r.2 }]))
      (b, acc) =
    (b && inputs.all (fun i => (validateInput i.name i.value VALIDATION_RULES).1),
     acc ++ inputs.map
       (fun i => { i with validationMessage := (validateInput i.name i.value VALIDATION_RULES).2 })) := by
  induction inputs generalizing b acc with
  | nil => simp
  | cons x xs ih =>
      simp only [List.foldl_cons, List.all_cons, List.map_cons, ih, Bool.and_assoc,
        List.append_assoc, List.singleton_append]

/-- The validation loop (script.js lines 94–99) checks every input — it is
a fold over the whole list, never fail-fast — and its flag is the
conjunction of all `validateInput` results. -/
theorem runValidation_spec (inputs : List NumberInput) :
    runValidation inputs =
      (inputs.all (fun i => (validateInput i.name i.value VALIDATION_RULES).1),
       inputs.map
         (fun i => { i with validationMessage := (validateInput i.name i.value VALIDATION_RULES).2 })) := by
  unfold runValidation
  simpa using runValidation_foldl inputs true []

/-- A value strictly outside its rule's range makes `validateInput` fail
with the bounds message. -/
theorem validateInput_violation (name : String) (value : Option ℚ) (r : Rule)
    (hr : lookupRule VALIDATION_RULES name = some r)
    (hv : (jsLtNum value r.min || jsGtNum value r.max) = true) :
    validateInput name value VALIDATION_RULES =
      (false, s!"Value must be between {r.min} and {r.max}") := by
  unfold validateInput
  rw [hr]
  simp only [hv, if_true]

/-- C3: If any numeric input is outside its declared range, the submit
handler still checks every input (each gets its validity message), sets the
bounds-referencing message for violating fields (shown concretely for
`ph = 15`), and aborts with the alert before issuing any network call. -/
theorem validation_aborts_before_network (inputs : List NumberInput) (payload : FormData)
    (h : ∃ i ∈ inputs, ∃ r : Rule, lookupRule VALIDATION_RULES i.name = some r ∧
      (jsLtNum i.value r.min || jsGtNum i.value r.max) = true) :
    submitValidate inputs payload =
      SubmitStep.aborted "Please check the input values and try again."
        (inputs.map
          (fun i => { i with validationMessage := (validateInput i.name i.value VALIDATION_RULES).2 })) ∧
    issuesNetworkRequest (submitValidate inputs payload) = false ∧
    validateInput "ph" (some 15) VALIDATION_RULES =
      (false, "Value must be between 0 and 14") := by
  obtain ⟨i, hi, r, hr, hv⟩ := h
  have hfail : (validateInput i.name i.value VALIDATION_RULES).1 = false := by
    rw [validateInput_violation i.name i.value r hr hv]
  have hall : inputs.all (fun i => (validateInput i.name i.value VALIDATION_RULES).1) = false := by
    rw [Bool.eq_false_iff]
    intro hc
    rw [List.all_eq_true] at hc
    exact Bool.noConfusion (hfail ▸ hc i hi)
  have hs : submitValidate inputs payload =
      SubmitStep.aborted "Please check the input values and try again."
        (inputs.map
          (fun i => { i with validationMessage := (validateInput i.name i.value VALIDATION_RULES).2 })) := by
    unfold submitValidate
    rw [runValidation_spec]
    simp only [hall, Bool.false_eq_true, if_false]
  exact ⟨hs, by rw [hs]; rfl, by decide⟩

/-- Witness for C3 at the concrete submission with `ph = 15`. -/
theorem validation_aborts_before_network_witness :
    submitValidate [⟨"ph", some 15, ""⟩] payloadEx =
      SubmitStep.aborted "Please check the input values and try again."
        [⟨"ph", some 15, "Value must be between 0 and 14"⟩] ∧
    issuesNetworkRequest (submitValidate [⟨"ph", some 15, ""⟩] payloadEx) = false := by
  have h := validation_aborts_before_network [⟨"ph", some 15, ""⟩] payloadEx
    ⟨⟨"ph", some 15, ""⟩, List.mem_singleton.mpr rfl, ⟨0, 14⟩, rfl, by decide⟩
  exact ⟨h.1, h.2.1⟩

/-- A `NaN` value (empty or non-numeric field text) always passes
`validateInput` and clears the validity message. -/
theorem validateInput_nan (name : String) :
    validateInput name none VALIDATION_RULES = (true, "") := by
  unfold validateInput
  cases lookupRule VALIDATION_RULES name with
  | none => rfl
  | some r => rfl

/-- C10: `validateInput` accepts every input whose value parses to `NaN`
and every input whose name has no rules-table entry; consequently a
submission whose numeric fields are all empty or non-numeric passes the
validation step and reaches the network call. -/
theorem nan_or_unknown_input_accepted (name : String) (value : Option ℚ) :
    validateInput name none VALIDATION_RULES = (true, "") ∧
    (lookupRule VALIDATION_RULES name = none →
      validateInput name value VALIDATION_RULES = (true, "")) ∧
    (∀ (inputs : List NumberInput) (payload : FormData),
      (∀ i ∈ inputs, i.value = none) →
      issuesNetworkRequest (submitValidate inputs payload) = true) := by
  refine ⟨validateInput_nan name, ?_, ?_⟩
  · intro h
    unfold validateInput
    rw [h]
  · intro inputs payload h
    have hall : inputs.all (fun i => (validateInput i.name i.value VALIDATION_RULES).1) = true := by
      rw [List.all_eq_true]
      intro i hi
      rw [h i hi, validateInput_nan]
    unfold submitValidate
    rw [runValidation_spec]
    simp only [hall, if_true]
    rfl

/-- Witness for C10: `NaN` in a ruled field, an out-of-range value in an
unknown field, and an all-`NaN` submission that still issues the request. -/
theorem nan_or_unknown_input_accepted_witness :
    validateInput "ph" none VALIDATION_RULES = (true, "") ∧
    validateInput "unknown" (some 9999) VALIDATION_RULES = (true, "") ∧
    issuesNetworkRequest
      (submitValidate [⟨"ph", none, ""⟩, ⟨"temp", none, ""⟩] payloadEx) = true :=
  ⟨(nan_or_unknown_input_accepted "ph" none).1,
   (nan_or_unknown_input_accepted "unknown" (some 9999)).2.1 rfl,
   (nan_or_unknown_input_accepted "ph" none).2.2
     [⟨"ph", none, ""⟩, ⟨"temp", none, ""⟩] payloadEx
     (by intro i hi; simp only [List.mem_cons, List.not_mem_nil, or_false] at hi
         rcases hi with rfl | rfl <;> rfl)⟩

/-- C4: With no stored recommendation, the save action alerts (the
`NoResultError` of the specification) and issues no network call — the
request component is `none` for every possible history response. -/
theorem save_without_result_no_network (resp : HistoryResponse) :
    saveToHistory none resp =
      (SaveOutcome.noResult "No recommendation to save yet. Please get a recommendation first.",
       none) ∧
    (saveToHistory none resp).2 = none :=
  ⟨rfl, rfl⟩

/-- C5 counterexample: for a `null` details value the panel is cleared —
the projection is never applied, so the result is not a grid of `'—'`
fields (nor a grid at all). -/
theorem project_null_yields_cleared_panel :
    renderDetailsPanel none = DetailsPanel.cleared ∧
    ¬ ∃ v : DetailsView, renderDetailsPanel none = DetailsPanel.grid v ∧
        v.soilType = Json.str "—" := by
  refine ⟨rfl, ?_⟩
  rintro ⟨v, hv, -⟩
  exact DetailsPanel.noConfusion hv

/-- C5 (amended): a `null`/absent details value clears the panel; it is the
empty details object whose projection has every fixed field `'—'`, empty
nutrients and no additional entries. -/
theorem project_null_cleared_empty_obj_dashes :
    renderDetailsPanel none = DetailsPanel.cleared ∧
    renderDetailsPanel (some (Json.obj [])) =
      DetailsPanel.grid
        ⟨Json.obj [], Json.str "—", Json.str "—", Json.str "—", Json.str "—",
         Json.str "—", []⟩ :=
  ⟨rfl, rfl⟩

/-- Membership in the additional bucket: exactly the keys of the details
value outside the static `coveredKeys` list whose value is neither `null`
nor the empty string, paired with the stringified value. -/
theorem mem_additionalEntries (d : Json) (k s : String) :
    (k, s) ∈ additionalEntries d ↔
      k ∈ jsKeys d ∧ coveredKeys.contains k = false ∧
      ∃ v, getProp d k = some v ∧ v ≠ Json.null ∧ v ≠ Json.str "" ∧ s = stringify v := by
  unfold additionalEntries
  rw [List.mem_filterMap]
  constructor
  · rintro ⟨k', hk', hf⟩
    rw [List.mem_filter] at hk'
    obtain ⟨hmem, hcov⟩ := hk'
    rw [Bool.not_eq_eq_eq_not, Bool.not_true] at hcov
    cases hv : getProp d k' with
    | none => rw [hv] at hf; exact absurd hf (by simp)
    | some v =>
        rw [hv] at hf
        cases v with
        | null => exact absurd hf (by simp)
        | str s' =>
            have hfi : (if s' = "" then none else some (k', quoteString s')) = some (k, s) := hf
            by_cases hs : s' = ""
            · rw [if_pos hs] at hfi
              exact absurd hfi (by simp)
            · rw [if_neg hs] at hfi
              obtain ⟨rfl, rfl⟩ := Prod.mk.inj (Option.some.inj hfi)
              exact ⟨hmem, hcov, Json.str s', hv, fun h => Json.noConfusion h,
                fun h => hs (Json.str.inj h), rfl⟩
        | bool b =>
            have hfi : some (k', stringify (Json.bool b)) = some (k, s) := hf
            obtain ⟨rfl, rfl⟩ := Prod.mk.inj (Option.some.inj hfi)
            exact ⟨hmem, hcov, Json.bool b, hv, fun h => Json.noConfusion h,
              fun h => Json.noConfusion h, rfl⟩
        | num lx =>
            have hfi : some (k', stringify (Json.num lx)) = some (k, s) := hf
            obtain ⟨rfl, rfl⟩ := Prod.mk.inj (Option.some.inj hfi)
            exact ⟨hmem, hcov, Json.num lx, hv, fun h => Json.noConfusion h,
              fun h => Json.noConfusion h, rfl⟩
        | arr xs =>
            have hfi : some (k', stringify (Json.arr xs)) = some (k, s) := hf
            obtain ⟨rfl, rfl⟩ := Prod.mk.inj (Option.some.inj hfi)
            exact ⟨hmem, hcov, Json.arr xs, hv, fun h => Json.noConfusion h,
              fun h => Json.noConfusion h, rfl⟩
        | obj fs =>
            have hfi : some (k', stringify (Json.obj fs)) = some (k, s) := hf
            obtain ⟨rfl, rfl⟩ := Prod.mk.inj (Option.some.inj hfi)
            exact ⟨hmem, hcov, Json.obj fs, hv, fun h => Json.noConfusion h,
              fun h => Json.noConfusion h, rfl⟩
  · rintro ⟨hmem, hcov, v, hv, hnull, hnstr, rfl⟩
    refine ⟨k, List.mem_filter.mpr ⟨hmem, by rw [hcov]; rfl⟩, ?_⟩
    rw [hv]
    cases v with
    | null => exact absurd rfl hnull
    | str s' =>
        have hs : s' ≠ "" := fun h => hnstr (by rw [h])
        show (if s' = "" then none else some (k, quoteString s')) = some (k, stringify (Json.str s'))
        rw [if_neg hs]
        rfl
    | bool b => rfl
    | num lx => rfl
    | arr xs => rfl
    | obj fs => rfl

/-- C6 counterexample: the key `Soil` is consumed by the soil alias chain,
yet — being absent from the static `coveredKeys` list — it is also
surfaced in the additional bucket, which the claim says must be empty
here. -/
theorem alias_consumed_key_still_surfaced :
    (project (Json.obj [("Soil", Json.str "Loam")])).soilType = Json.str "Loam" ∧
    soilAliases.contains "Soil" = true ∧
    (project (Json.obj [("Soil", Json.str "Loam")])).additional =
      [("Soil", "\"Loam\"")] ∧
    (project (Json.obj [("Soil", Json.str "Loam")])).additional ≠ [] := by
  refine ⟨rfl, rfl, rfl, ?_⟩
  intro h
  exact absurd (congrArg List.length h) (by decide)

/-- C6 (amended): the additional bucket surfaces exactly the keys outside
the static `coveredKeys` list (which omits several alias-chain keys, such
as `Soil`, so a key consumed by a fixed concept can also be surfaced),
skipping `null` and empty-string values and stringifying the rest; on the
specification's example the fixed fields and the single `extra_field`
entry come out as stated. -/
theorem additional_bucket_spec (fields : List (String × Json)) (k : String) (s : String) :
    ((k, s) ∈ (project (Json.obj fields)).additional ↔
      k ∈ fields.map Prod.fst ∧ k ∉ coveredKeys ∧
      ∃ v, assocLookup fields k = some v ∧ v ≠ Json.null ∧ v ≠ Json.str "" ∧
        s = stringify v) ∧
    (project exDetails).soilType = Json.str "Loam" ∧
    (project exDetails).pHRange = Json.str "6-7" ∧
    (project exDetails).additional = [("extra_field", "\"x\"")] := by
  refine ⟨?_, rfl, rfl, rfl⟩
  have h := mem_additionalEntries (Json.obj fields) k s
  rw [show (project (Json.obj fields)).additional = additionalEntries (Json.obj fields) from rfl]
  rw [h]
  have hmemiff : coveredKeys.contains k = true ↔ k ∈ coveredKeys := List.elem_iff
  constructor
  · rintro ⟨hmem, hcov, hv⟩
    refine ⟨hmem, ?_, hv⟩
    intro hk
    rw [hmemiff.mpr hk] at hcov
    exact Bool.noConfusion hcov
  · rintro ⟨hmem, hcov, hv⟩
    refine ⟨hmem, ?_, hv⟩
    rw [Bool.eq_false_iff]
    intro hk
    exact hcov (hmemiff.mp hk)

/-- C7: Whenever the save action has issued its request (a stored result
exists and its payload could be built), a non-2xx history response makes it
fail with the history API error carrying exactly that status and the
`saveUnwrap`-unwrapped body, and a 2xx response never produces that
error. -/
theorem history_api_error_iff_bad_status (r : StoredResult) (resp : HistoryResponse)
    (hr : r.result ≠ Json.null) :
    (statusOk resp.status = false →
      (saveToHistory (some r) resp).1 =
        SaveOutcome.apiError resp.status (saveUnwrap resp.text)) ∧
    (statusOk resp.status = true →
      ∀ (s : Nat) (b : Json),
        (saveToHistory (some r) resp).1 ≠ SaveOutcome.apiError s b) := by
  obtain ⟨ts, inp, res, nm, loc⟩ := r
  unfold saveToHistory
  cases res with
  | null => exact absurd rfl hr
  | bool b => ?_
  | num lx => ?_
  | str s' => ?_
  | arr xs => ?_
  | obj fs => ?_
  all_goals
    refine ⟨fun hbad => ?_, fun hok s b hcon => ?_⟩
  all_goals
    first
    | (simp only [hbad, Bool.false_eq_true, if_false])
    | (simp only [hok, if_true] at hcon
       cases hsu : saveUnwrap resp.text <;> rw [hsu] at hcon <;> exact SaveOutcome.noConfusion hcon)

/-- Witness for C7: a concrete stored result with a 500 response (history
API error with status and unwrapped body) and a 200 response (no such
error). -/
theorem history_api_error_iff_bad_status_witness :
    (saveToHistory (some storedEx) ⟨500, "oops"⟩).1 =
      SaveOutcome.apiError 500 (Json.obj [("__raw", Json.str "oops")]) ∧
    (saveToHistory (some storedEx) ⟨200, ""⟩).1 ≠
      SaveOutcome.apiError 200 (Json.obj []) :=
  ⟨(history_api_error_iff_bad_status storedEx ⟨500, "oops"⟩
      (fun h => Json.noConfusion h)).1 rfl,
   (history_api_error_iff_bad_status storedEx ⟨200, ""⟩
      (fun h => Json.noConfusion h)).2 rfl 200 (Json.obj [])⟩

/-- C9 counterexample: a submission whose fetch succeeds with response text
`"null"` fails during rendering (reported via the catch-block alert), yet
the `lastResult` slot — written on script.js line 126, before rendering —
has already been overwritten. -/
theorem lastResult_overwritten_on_failed_render :
    (submitHandler ⟨none, domEx⟩ [] payloadEx none none "2026-01-01T00:00:00.000Z"
        (FetchOutcome.success "null")).2 = SubmitOutcome.failedRender ∧
    (submitHandler ⟨none, domEx⟩ [] payloadEx none none "2026-01-01T00:00:00.000Z"
        (FetchOutcome.success "null")).1.lastResult ≠ none := by
  refine ⟨rfl, ?_⟩
  intro h
  exact Option.noConfusion h

/-- C9 (amended): a network failure reports the error and leaves both the
rendered content and `lastResult` untouched; but once the fetch succeeds,
`lastResult` is overwritten with the new snapshot regardless of whether
rendering then throws — a rendering failure is reported with the content
untouched while the slot already holds the new snapshot. -/
theorem lastResult_update_policy (st : AppState) (inputs : List NumberInput)
    (payload : FormData) (nm loc : Option String) (now : String) :
    (∀ msg,
      (submitHandler st inputs payload nm loc now (FetchOutcome.failure msg)).1.lastResult =
        st.lastResult ∧
      contentUnchanged st.dom
        (submitHandler st inputs payload nm loc now (FetchOutcome.failure msg)).1.dom) ∧
    (∀ text, (runValidation inputs).1 = true →
      (submitHandler st inputs payload nm loc now (FetchOutcome.success text)).1.lastResult =
        some ⟨now, payload, normalize text, nm, loc⟩) ∧
    (∀ text, (runValidation inputs).1 = true → renderThrows (normalize text) = true →
      (submitHandler st inputs payload nm loc now (FetchOutcome.success text)).2 =
        SubmitOutcome.failedRender ∧
      contentUnchanged st.dom
        (submitHandler st inputs payload nm loc now (FetchOutcome.success text)).1.dom) := by
  have hvalid : ∀ h : (runValidation inputs).1 = true,
      submitValidate inputs payload =
        SubmitStep.requesting payload (runValidation inputs).2 := by
    intro h
    unfold submitValidate
    simp [h]
  refine ⟨fun msg => ?_, fun text hval => ?_, fun text hval hthrow => ?_⟩
  · unfold submitHandler
    cases submitValidate inputs payload with
    | aborted m ins => exact ⟨rfl, rfl, rfl, rfl, rfl⟩
    | requesting p ins => exact ⟨rfl, rfl, rfl, rfl, rfl⟩
  · unfold submitHandler
    rw [hvalid hval]
    cases ht : renderThrows (normalize text) with
    | false => simp [ht]
    | true => simp [ht]
  · unfold submitHandler
    rw [hvalid hval]
    simp only [hthrow, if_true]
    refine ⟨?_, ?_, ?_, ?_, ?_⟩ <;> trivial

/-- Witness for the amended C9 at concrete states: network failure keeps
`lastResult`; a successful fetch of `"null"` overwrites it although the
submission is reported as a rendering failure. -/
theorem lastResult_update_policy_witness :
    (submitHandler ⟨none, domEx⟩ [] payloadEx none none "t0"
        (FetchOutcome.failure "boom")).1.lastResult = none ∧
    (submitHandler ⟨none, domEx⟩ [] payloadEx none none "t0"
        (FetchOutcome.success "null")).1.lastResult =
      some ⟨"t0", payloadEx, Json.null, none, none⟩ ∧
    (submitHandler ⟨none, domEx⟩ [] payloadEx none none "t0"
        (FetchOutcome.success "null")).2 = SubmitOutcome.failedRender := by
  have h := lastResult_update_policy ⟨none, domEx⟩ [] payloadEx none none "t0"
  exact ⟨(h.1 "boom").1, h.2.1 "null" rfl, (h.2.2 "null" rfl rfl).1⟩

end CropRec
